import Mathlib

/-!
# STMPE811 touch controller: board adapter of the STM32F429i-Discovery

Shallow embedding of `boards/base/STM32F429i-Discovery/gmouse_lld_STMPE811_board.h`.

The adapter talks to the hardware only through calls of the RTOS hardware
abstraction layer (`palSetPadMode`, `palReadPad`, `i2cStart`, `i2cAcquireBus`,
`i2cMasterTransmitTimeout`, `i2cReleaseBus`).  Those calls are external to the
repository, so the hardware state is the history of the calls issued so far,
and what the hardware answers (the level of a pad, the status and the received
bytes of a transfer) is an explicit input of each function.

Machine integers are natural numbers; a value stored in a `uint8_t` is reduced
modulo 256 and one returned as `uint16_t` modulo 65536.  `bool_t` is `Bool`
(`TRUE` is `true`, `FALSE` is `false`).
-/

namespace STMPE811Board

/-! ## Configuration constants (lines 11-35) -/

def GMOUSE_STMPE811_PEN_CALIBRATE_ERROR : Nat := 8
def GMOUSE_STMPE811_PEN_CLICK_ERROR : Nat := 6
def GMOUSE_STMPE811_PEN_MOVE_ERROR : Nat := 4
def GMOUSE_STMPE811_FINGER_CALIBRATE_ERROR : Nat := 14
def GMOUSE_STMPE811_FINGER_CLICK_ERROR : Nat := 18
def GMOUSE_STMPE811_FINGER_MOVE_ERROR : Nat := 14

def GMOUSE_STMPE811_BOARD_DATA_SIZE : Nat := 0
def GMOUSE_STMPE811_SELF_CALIBRATE : Bool := false
def GMOUSE_STMPE811_GPIO_IRQPIN : Bool := true
def GMOUSE_STMPE811_SLOW_CPU : Bool := false

/-- Maximum timeout, in milliseconds before the conversion to system ticks. -/
def STMPE811_TIMEOUT : Nat := 0x3000

/-! ## The hardware abstraction layer as seen from the adapter -/

/-- GPIO ports of the microcontroller that the adapter names. -/
inductive Port where
  | GPIOA
  | GPIOC
  deriving DecidableEq, Repr

/-- Operands of the pad mode expressions; a mode is the list of the flags
joined by the bitwise or of the source. -/
inductive PalFlag where
  | PAL_MODE_INPUT
  | PAL_STM32_PUDR_FLOATING
  | PAL_MODE_ALTERNATE (n : Nat)
  | PAL_STM32_OTYPE_OPENDRAIN
  deriving DecidableEq, Repr

/-- I2C peripheral drivers of the HAL; the adapter uses the third one. -/
inductive I2CDriver where
  | I2CD1
  | I2CD2
  | I2CD3
  deriving DecidableEq, Repr

inductive I2COpMode where
  | OPMODE_I2C
  | OPMODE_SMBUS_DEVICE
  | OPMODE_SMBUS_HOST
  deriving DecidableEq, Repr

inductive I2CDutyCycle where
  | STD_DUTY_CYCLE
  | FAST_DUTY_CYCLE_2
  | FAST_DUTY_CYCLE_16_9
  deriving DecidableEq, Repr

structure I2CConfig where
  op_mode : I2COpMode
  clock_speed : Nat
  duty_cycle : I2CDutyCycle
  deriving DecidableEq, Repr

/-- The bus configuration of lines 37-41. -/
def i2ccfg : I2CConfig :=
  { op_mode := .OPMODE_I2C, clock_speed := 400000, duty_cycle := .FAST_DUTY_CYCLE_2 }

/-- One call of a HAL function, with the arguments the adapter passes. -/
inductive HalOp where
  | palSetPadMode (port : Port) (pad : Nat) (mode : List PalFlag)
  | palReadPad (port : Port) (pad : Nat)
  | i2cStart (drv : I2CDriver) (cfg : I2CConfig)
  | i2cAcquireBus (drv : I2CDriver)
  | i2cMasterTransmitTimeout (drv : I2CDriver) (addr : Nat) (txbuf : List Nat)
      (txbytes : Nat) (rxbytes : Nat) (timeout : Nat)
  | i2cReleaseBus (drv : I2CDriver)
  deriving DecidableEq, Repr

/-- Hardware state: the HAL calls issued so far, oldest first. -/
structure Hw where
  trace : List HalOp
  deriving DecidableEq, Repr

/-- Status a timed I2C transfer returns: success, bus error, timeout. -/
inductive msg_t where
  | RDY_OK
  | RDY_RESET
  | RDY_TIMEOUT
  deriving DecidableEq, Repr

/-- What the bus does during one timed transfer: the status returned and the
bytes the device delivered into the receive buffer before the transfer ended. -/
structure Transfer where
  status : msg_t
  rx : List Nat
  deriving DecidableEq, Repr

/-- Names the source uses without defining them: the device address of the
generic driver and the milliseconds to ticks conversion of the RTOS. -/
structure Extern where
  STMPE811_ADDR : Nat
  MS2ST : Nat → Nat

/-- The touch instance handle of the generic driver; every adapter function
receives it and discards it with a cast to void. -/
structure GMouse where
  handle : Nat
  deriving DecidableEq, Repr

def palSetPadMode (port : Port) (pad : Nat) (mode : List PalFlag) (hw : Hw) : Hw :=
  { trace := hw.trace ++ [.palSetPadMode port pad mode] }

/-- Reading a pad returns the level the hardware presents. -/
def palReadPad (level : Nat) (port : Port) (pad : Nat) (hw : Hw) : Nat × Hw :=
  (level, { trace := hw.trace ++ [.palReadPad port pad] })

def i2cStart (drv : I2CDriver) (cfg : I2CConfig) (hw : Hw) : Hw :=
  { trace := hw.trace ++ [.i2cStart drv cfg] }

def i2cAcquireBus (drv : I2CDriver) (hw : Hw) : Hw :=
  { trace := hw.trace ++ [.i2cAcquireBus drv] }

def i2cReleaseBus (drv : I2CDriver) (hw : Hw) : Hw :=
  { trace := hw.trace ++ [.i2cReleaseBus drv] }

/-- Receive buffer after a transfer: the delivered bytes, at most `rxbytes` of
them, overwrite the front of the buffer; the rest keeps its content. -/
def receive (rxbuf : List Nat) (rxbytes : Nat) (rx : List Nat) : List Nat :=
  let delivered := (rx.take rxbytes).map (fun b => b % 256)
  delivered ++ rxbuf.drop delivered.length

/-- A timed transfer: returns the status, the receive buffer and the new
hardware state. -/
def i2cMasterTransmitTimeout (x : Transfer) (drv : I2CDriver) (addr : Nat)
    (txbuf : List Nat) (txbytes : Nat) (rxbuf : List Nat) (rxbytes : Nat)
    (timeout : Nat) (hw : Hw) : msg_t × List Nat × Hw :=
  (x.status, receive rxbuf rxbytes x.rx,
    { trace := hw.trace ++ [.i2cMasterTransmitTimeout drv addr txbuf txbytes rxbytes timeout] })

/-! ## The adapter functions (lines 43-114) -/

/-- Lines 43-57. -/
def init_board (_m : GMouse) (driverinstance : Nat) (hw : Hw) : Bool × Hw :=
  -- This board only supports one touch panel
  if driverinstance ≠ 0 then
    (false, hw)
  else
    let hw := palSetPadMode .GPIOA 15 [.PAL_MODE_INPUT, .PAL_STM32_PUDR_FLOATING] hw
    let hw := palSetPadMode .GPIOA 8 [.PAL_MODE_ALTERNATE 4, .PAL_STM32_OTYPE_OPENDRAIN] hw
    let hw := palSetPadMode .GPIOC 9 [.PAL_MODE_ALTERNATE 4, .PAL_STM32_OTYPE_OPENDRAIN] hw
    let hw := i2cStart .I2CD3 i2ccfg hw
    (true, hw)

/-- Lines 60-64: the logical negation of the pad level. -/
def getpin_irq (level : Nat) (_m : GMouse) (hw : Hw) : Bool × Hw :=
  let (v, hw) := palReadPad level .GPIOA 15 hw
  (v == 0, hw)

/-- Lines 67-70: empty body. -/
def aquire_bus (_m : GMouse) (hw : Hw) : Hw := hw

/-- Lines 72-75: empty body. -/
def release_bus (_m : GMouse) (hw : Hw) : Hw := hw

/-- Lines 77-87; the status of the transfer is not looked at. -/
def write_reg (env : Extern) (x : Transfer) (_m : GMouse) (reg val : Nat) (hw : Hw) :
    Unit × Hw :=
  let txbuf := [reg % 256, val % 256]
  let hw := i2cAcquireBus .I2CD3 hw
  let (_, _, hw) := i2cMasterTransmitTimeout x .I2CD3 env.STMPE811_ADDR txbuf 2 [] 0
    (env.MS2ST STMPE811_TIMEOUT) hw
  let hw := i2cReleaseBus .I2CD3 hw
  ((), hw)

/-- Lines 89-100; the status of the transfer is not looked at. -/
def read_byte (env : Extern) (x : Transfer) (_m : GMouse) (reg : Nat) (hw : Hw) :
    Nat × Hw :=
  let rxbuf := [0]
  let hw := i2cAcquireBus .I2CD3 hw
  let (_, rxbuf, hw) := i2cMasterTransmitTimeout x .I2CD3 env.STMPE811_ADDR [reg % 256] 1
    rxbuf 1 (env.MS2ST STMPE811_TIMEOUT) hw
  let hw := i2cReleaseBus .I2CD3 hw
  (rxbuf.getD 0 0, hw)

/-- Lines 102-114; the status of the transfer is not looked at. -/
def read_word (env : Extern) (x : Transfer) (_m : GMouse) (reg : Nat) (hw : Hw) :
    Nat × Hw :=
  let rxbuf := [0, 0]
  let hw := i2cAcquireBus .I2CD3 hw
  let (_, rxbuf, hw) := i2cMasterTransmitTimeout x .I2CD3 env.STMPE811_ADDR [reg % 256] 1
    rxbuf 2 (env.MS2ST STMPE811_TIMEOUT) hw
  let hw := i2cReleaseBus .I2CD3 hw
  ((((rxbuf.getD 0 0) % 65536) <<< 8 ||| rxbuf.getD 1 0) % 65536, hw)

/-! ## Sequences of adapter calls and the bus discipline of a trace -/

/-- One call of the bus part of the adapter, with what the bus answers. -/
inductive Call where
  | aquire_bus
  | release_bus
  | write_reg (reg val : Nat) (x : Transfer)
  | read_byte (reg : Nat) (x : Transfer)
  | read_word (reg : Nat) (x : Transfer)
  deriving DecidableEq, Repr

/-- Executes one call on the hardware state (results are dropped). -/
def execCall (env : Extern) (m : GMouse) : Call → Hw → Hw
  | .aquire_bus, hw => aquire_bus m hw
  | .release_bus, hw => release_bus m hw
  | .write_reg reg val x, hw => (write_reg env x m reg val hw).2
  | .read_byte reg x, hw => (read_byte env x m reg hw).2
  | .read_word reg x, hw => (read_word env x m reg hw).2

/-- Executes the calls from left to right. -/
def runCalls (env : Extern) (m : GMouse) : List Call → Hw → Hw
  | [], hw => hw
  | c :: cs, hw => runCalls env m cs (execCall env m c hw)

/-- Every `release_bus` of the sequence follows an `aquire_bus` that no earlier
`release_bus` has used up; `open_` counts the unmatched `aquire_bus` calls. -/
def bracketed (open_ : Nat) : List Call → Bool
  | [] => true
  | .aquire_bus :: cs => bracketed (open_ + 1) cs
  | .release_bus :: cs => open_ != 0 && bracketed (open_ - 1) cs
  | _ :: cs => bracketed open_ cs

/-- Number of outstanding I2C bus acquisitions after the operations, starting
from `d` outstanding ones; `none` when a release finds nothing to release. -/
def busDepth (d : Nat) : List HalOp → Option Nat
  | [] => some d
  | .i2cAcquireBus _ :: ops => busDepth (d + 1) ops
  | .i2cReleaseBus _ :: ops => if d = 0 then none else busDepth (d - 1) ops
  | _ :: ops => busDepth d ops

def isAcquire : HalOp → Bool
  | .i2cAcquireBus _ => true
  | _ => false

def isRelease : HalOp → Bool
  | .i2cReleaseBus _ => true
  | _ => false

def isTransfer : HalOp → Bool
  | .i2cMasterTransmitTimeout _ _ _ _ _ _ => true
  | _ => false

/-- The operations a hardware state gained over an earlier one. -/
def issued (before after : Hw) : List HalOp :=
  after.trace.drop before.trace.length

/-- The call sequence of one logical sample: acquire, select a register by a
write, read a word, release. -/
def sampleCalls (selectReg v reg : Nat) (x1 x2 : Transfer) : List Call :=
  [.aquire_bus, .write_reg selectReg v x1, .read_word reg x2, .release_bus]

/-- A concrete environment for evaluation: 7-bit address 0x41, one tick per
millisecond. -/
def env0 : Extern := { STMPE811_ADDR := 0x41, MS2ST := fun ms => ms }

def m0 : GMouse := { handle := 0 }

def hw0 : Hw := { trace := [] }

/-- The operations one adapter call issues, read off the function bodies. -/
def callOps (env : Extern) : Call → List HalOp
  | .aquire_bus => []
  | .release_bus => []
  | .write_reg reg val _ =>
      [.i2cAcquireBus .I2CD3,
       .i2cMasterTransmitTimeout .I2CD3 env.STMPE811_ADDR [reg % 256, val % 256] 2 0
         (env.MS2ST STMPE811_TIMEOUT),
       .i2cReleaseBus .I2CD3]
  | .read_byte reg _ =>
      [.i2cAcquireBus .I2CD3,
       .i2cMasterTransmitTimeout .I2CD3 env.STMPE811_ADDR [reg % 256] 1 1
         (env.MS2ST STMPE811_TIMEOUT),
       .i2cReleaseBus .I2CD3]
  | .read_word reg _ =>
      [.i2cAcquireBus .I2CD3,
       .i2cMasterTransmitTimeout .I2CD3 env.STMPE811_ADDR [reg % 256] 1 2
         (env.MS2ST STMPE811_TIMEOUT),
       .i2cReleaseBus .I2CD3]

def callsOps (env : Extern) : List Call → List HalOp
  | [] => []
  | c :: cs => callOps env c ++ callsOps env cs

/-- A trace made of whole bus transactions only: acquire, one timed transfer,
release, any number of times. -/
inductive Transactions : List HalOp → Prop where
  | nil : Transactions []
  | cons (drv : I2CDriver) (addr : Nat) (txbuf : List Nat) (txbytes rxbytes timeout : Nat)
      (rest : List HalOp) (h : Transactions rest) :
      Transactions (.i2cAcquireBus drv ::
        .i2cMasterTransmitTimeout drv addr txbuf txbytes rxbytes timeout ::
        .i2cReleaseBus drv :: rest)

/-! ## Lemmas on traces -/

/-- A transfer keeps the size of the receive buffer, so the reads of
`rxbuf[0]` and `rxbuf[1]` after it stay inside the buffer. -/
theorem receive_length (rxbuf : List Nat) (rxbytes : Nat) (rx : List Nat)
    (h : rxbytes ≤ rxbuf.length) : (receive rxbuf rxbytes rx).length = rxbuf.length := by
  simp only [receive, List.length_append, List.length_map, List.length_take, List.length_drop]
  omega

theorem issued_append (hw : Hw) (ops : List HalOp) :
    issued hw { trace := hw.trace ++ ops } = ops := by
  simp [issued]

theorem issued_of_trace (hw hw2 : Hw) (ops : List HalOp) (h : hw2.trace = hw.trace ++ ops) :
    issued hw hw2 = ops := by
  simp [issued, h]

theorem execCall_trace (env : Extern) (m : GMouse) (c : Call) (hw : Hw) :
    (execCall env m c hw).trace = hw.trace ++ callOps env c := by
  cases c <;>
    simp [execCall, callOps, aquire_bus, release_bus, write_reg, read_byte, read_word,
      i2cAcquireBus, i2cReleaseBus, i2cMasterTransmitTimeout]

theorem runCalls_trace (env : Extern) (m : GMouse) (cs : List Call) (hw : Hw) :
    (runCalls env m cs hw).trace = hw.trace ++ callsOps env cs := by
  induction cs generalizing hw with
  | nil => simp [runCalls, callsOps]
  | cons c cs ih =>
    simp [runCalls, callsOps, ih, execCall_trace, List.append_assoc]

theorem transactions_callOps (env : Extern) (c : Call) (rest : List HalOp)
    (h : Transactions rest) : Transactions (callOps env c ++ rest) := by
  cases c
  · simpa [callOps] using h
  · simpa [callOps] using h
  · exact Transactions.cons _ _ _ _ _ _ _ h
  · exact Transactions.cons _ _ _ _ _ _ _ h
  · exact Transactions.cons _ _ _ _ _ _ _ h

theorem transactions_callsOps (env : Extern) (cs : List Call) :
    Transactions (callsOps env cs) := by
  induction cs with
  | nil => exact Transactions.nil
  | cons c cs ih => exact transactions_callOps env c _ ih

theorem transactions_depth_le_one {ops : List HalOp} (h : Transactions ops) :
    ∀ p q : List HalOp, ops = p ++ q → ∃ d, busDepth 0 p = some d ∧ d ≤ 1 := by
  induction h with
  | nil =>
    intro p q hpq
    have hp : p = [] := (List.append_eq_nil.mp hpq.symm).1
    subst hp
    exact ⟨0, rfl, by omega⟩
  | cons drv addr txbuf txbytes rxbytes timeout rest _ ih =>
    intro p q hpq
    match p, hpq with
    | [], _ => exact ⟨0, rfl, by omega⟩
    | [a], hpq =>
      simp only [List.cons_append, List.nil_append, List.cons.injEq] at hpq
      obtain ⟨ha, _⟩ := hpq
      subst ha
      exact ⟨1, rfl, by omega⟩
    | [a, b], hpq =>
      simp only [List.cons_append, List.nil_append, List.cons.injEq] at hpq
      obtain ⟨ha, hb, _⟩ := hpq
      subst ha; subst hb
      exact ⟨1, rfl, by omega⟩
    | a :: b :: c :: p2, hpq =>
      simp only [List.cons_append, List.cons.injEq] at hpq
      obtain ⟨ha, hb, hc, hrest⟩ := hpq
      subst ha; subst hb; subst hc
      obtain ⟨d, hd, hle⟩ := ih p2 q hrest
      exact ⟨d, by simpa [busDepth] using hd, hle⟩

theorem transactions_release_matched {ops : List HalOp} (h : Transactions ops) :
    ∀ (p : List HalOp) (drv : I2CDriver) (q : List HalOp),
      ops = p ++ HalOp.i2cReleaseBus drv :: q → busDepth 0 p = some 1 := by
  induction h with
  | nil =>
    intro p drv q hpq
    simp at hpq
  | cons drv0 addr txbuf txbytes rxbytes timeout rest _ ih =>
    intro p drv q hpq
    match p, hpq with
    | [], hpq => simp at hpq
    | [a], hpq => simp at hpq
    | [a, b], hpq =>
      simp only [List.cons_append, List.nil_append, List.cons.injEq] at hpq
      obtain ⟨ha, hb, _⟩ := hpq
      subst ha; subst hb
      rfl
    | a :: b :: c :: p2, hpq =>
      simp only [List.cons_append, List.cons.injEq] at hpq
      obtain ⟨ha, hb, hc, hrest⟩ := hpq
      subst ha; subst hb; subst hc
      simpa [busDepth] using ih p2 drv q hrest

theorem transactions_all_released {ops : List HalOp} (h : Transactions ops) :
    busDepth 0 ops = some 0 := by
  induction h with
  | nil => rfl
  | cons drv addr txbuf txbytes rxbytes timeout rest _ ih => simpa [busDepth] using ih

/-- Two bytes joined by shift and or, truncated to 16 bits. -/
theorem word_of_bytes (b0 b1 : Nat) (h0 : b0 < 256) (h1 : b1 < 256) :
    ((b0 % 65536) <<< 8 ||| b1) % 65536 = 256 * b0 + b1 := by
  have e : (b0 % 65536) <<< 8 ||| b1 = 2 ^ 8 * b0 + b1 := by
    rw [Nat.mod_eq_of_lt (by omega), Nat.shiftLeft_eq, Nat.mul_comm]
    exact (Nat.mul_add_lt_is_or (by omega) b0).symm
  rw [e]
  omega

/-! ## Error thresholds -/

/-- C6: every pen tolerance is strictly smaller than the corresponding finger
tolerance, and all six thresholds are positive. -/
theorem pen_thresholds_lt_finger :
    GMOUSE_STMPE811_PEN_CALIBRATE_ERROR < GMOUSE_STMPE811_FINGER_CALIBRATE_ERROR ∧
    GMOUSE_STMPE811_PEN_CLICK_ERROR < GMOUSE_STMPE811_FINGER_CLICK_ERROR ∧
    GMOUSE_STMPE811_PEN_MOVE_ERROR < GMOUSE_STMPE811_FINGER_MOVE_ERROR ∧
    0 < GMOUSE_STMPE811_PEN_CALIBRATE_ERROR ∧ 0 < GMOUSE_STMPE811_PEN_CLICK_ERROR ∧
    0 < GMOUSE_STMPE811_PEN_MOVE_ERROR ∧ 0 < GMOUSE_STMPE811_FINGER_CALIBRATE_ERROR ∧
    0 < GMOUSE_STMPE811_FINGER_CLICK_ERROR ∧ 0 < GMOUSE_STMPE811_FINGER_MOVE_ERROR := by
  decide

/-- C9, as stated, fails: the finger calibration threshold (14) is below the
finger click threshold (18), so the four inequalities do not hold together. -/
theorem calibrate_not_loosest_for_finger :
    ¬ (GMOUSE_STMPE811_PEN_CALIBRATE_ERROR ≥ GMOUSE_STMPE811_PEN_CLICK_ERROR ∧
       GMOUSE_STMPE811_PEN_CALIBRATE_ERROR ≥ GMOUSE_STMPE811_PEN_MOVE_ERROR ∧
       GMOUSE_STMPE811_FINGER_CALIBRATE_ERROR ≥ GMOUSE_STMPE811_FINGER_CLICK_ERROR ∧
       GMOUSE_STMPE811_FINGER_CALIBRATE_ERROR ≥ GMOUSE_STMPE811_FINGER_MOVE_ERROR) := by
  decide

/-- C9, amended: the pen calibration threshold is at least the pen click and
pen move thresholds; the finger calibration threshold is at least the finger
move threshold and strictly below the finger click threshold. -/
theorem calibrate_threshold_order :
    GMOUSE_STMPE811_PEN_CALIBRATE_ERROR ≥ GMOUSE_STMPE811_PEN_CLICK_ERROR ∧
    GMOUSE_STMPE811_PEN_CALIBRATE_ERROR ≥ GMOUSE_STMPE811_PEN_MOVE_ERROR ∧
    GMOUSE_STMPE811_FINGER_CALIBRATE_ERROR ≥ GMOUSE_STMPE811_FINGER_MOVE_ERROR ∧
    GMOUSE_STMPE811_FINGER_CALIBRATE_ERROR < GMOUSE_STMPE811_FINGER_CLICK_ERROR := by
  decide

/-! ## Initialisation and the interrupt line -/

/-- C1: init_board returns TRUE if and only if the driver instance is 0; in
particular it returns TRUE for instance 0 and FALSE for instance 1. -/
theorem init_board_true_iff_instance_zero (m : GMouse) (driverinstance : Nat) (hw : Hw) :
    ((init_board m driverinstance hw).1 = true ↔ driverinstance = 0) ∧
    (init_board m 0 hw).1 = true ∧ (init_board m 1 hw).1 = false := by
  refine ⟨?_, by simp [init_board], by simp [init_board]⟩
  by_cases h : driverinstance = 0 <;> simp [init_board, h]

/-- C7: for a driver instance other than 0, init_board returns FALSE and leaves
the hardware state as it was (no pad mode set, no I2C start); for instance 0 it
returns TRUE after exactly four HAL calls: pad modes of GPIOA 15 (IRQ),
GPIOA 8 (SCL), GPIOC 9 (SDA), then one start of I2CD3 with i2ccfg. -/
theorem init_board_unsupported_leaves_hw (m : GMouse) (driverinstance : Nat) (hw : Hw)
    (h : driverinstance ≠ 0) :
    init_board m driverinstance hw = (false, hw) ∧
    issued hw (init_board m driverinstance hw).2 = [] ∧
    init_board m 0 hw = (true, { trace := hw.trace ++
      [.palSetPadMode .GPIOA 15 [.PAL_MODE_INPUT, .PAL_STM32_PUDR_FLOATING],
       .palSetPadMode .GPIOA 8 [.PAL_MODE_ALTERNATE 4, .PAL_STM32_OTYPE_OPENDRAIN],
       .palSetPadMode .GPIOC 9 [.PAL_MODE_ALTERNATE 4, .PAL_STM32_OTYPE_OPENDRAIN],
       .i2cStart .I2CD3 i2ccfg] }) := by
  refine ⟨by simp [init_board, h], by simp [init_board, h, issued], ?_⟩
  simp [init_board, palSetPadMode, i2cStart]

theorem init_board_unsupported_leaves_hw_witness :
    (1 : Nat) ≠ 0 ∧
    (init_board m0 1 hw0 = (false, hw0) ∧
     issued hw0 (init_board m0 1 hw0).2 = [] ∧
     init_board m0 0 hw0 = (true, { trace := hw0.trace ++
      [.palSetPadMode .GPIOA 15 [.PAL_MODE_INPUT, .PAL_STM32_PUDR_FLOATING],
       .palSetPadMode .GPIOA 8 [.PAL_MODE_ALTERNATE 4, .PAL_STM32_OTYPE_OPENDRAIN],
       .palSetPadMode .GPIOC 9 [.PAL_MODE_ALTERNATE 4, .PAL_STM32_OTYPE_OPENDRAIN],
       .i2cStart .I2CD3 i2ccfg] })) :=
  ⟨by decide, init_board_unsupported_leaves_hw m0 1 hw0 (by decide)⟩

/-- C4: getpin_irq is active low: it reads GPIOA pad 15 once and returns TRUE
if and only if the pad reads 0, FALSE if and only if the pad reads non-zero. -/
theorem getpin_irq_active_low (level : Nat) (m : GMouse) (hw : Hw) :
    ((getpin_irq level m hw).1 = true ↔ level = 0) ∧
    ((getpin_irq level m hw).1 = false ↔ level ≠ 0) ∧
    issued hw (getpin_irq level m hw).2 = [.palReadPad .GPIOA 15] := by
  simp [getpin_irq, palReadPad, issued]

/-! ## Register transactions -/

/-- C2: write_reg, read_byte and read_word each issue exactly three bus
operations, whatever the register, the value and the outcome of the transfer:
acquire the bus, one timed transfer, release the bus; so the number of
outstanding acquisitions after the call is what it was before. -/
theorem register_ops_acquire_transfer_release (env : Extern) (x : Transfer) (m : GMouse)
    (reg val : Nat) (hw : Hw) (d : Nat) :
    issued hw (write_reg env x m reg val hw).2 =
      [.i2cAcquireBus .I2CD3,
       .i2cMasterTransmitTimeout .I2CD3 env.STMPE811_ADDR [reg % 256, val % 256] 2 0
         (env.MS2ST STMPE811_TIMEOUT),
       .i2cReleaseBus .I2CD3] ∧
    issued hw (read_byte env x m reg hw).2 =
      [.i2cAcquireBus .I2CD3,
       .i2cMasterTransmitTimeout .I2CD3 env.STMPE811_ADDR [reg % 256] 1 1
         (env.MS2ST STMPE811_TIMEOUT),
       .i2cReleaseBus .I2CD3] ∧
    issued hw (read_word env x m reg hw).2 =
      [.i2cAcquireBus .I2CD3,
       .i2cMasterTransmitTimeout .I2CD3 env.STMPE811_ADDR [reg % 256] 1 2
         (env.MS2ST STMPE811_TIMEOUT),
       .i2cReleaseBus .I2CD3] ∧
    busDepth d (issued hw (write_reg env x m reg val hw).2) = some d ∧
    busDepth d (issued hw (read_byte env x m reg hw).2) = some d ∧
    busDepth d (issued hw (read_word env x m reg hw).2) = some d := by
  simp [write_reg, read_byte, read_word, i2cAcquireBus, i2cReleaseBus,
    i2cMasterTransmitTimeout, issued, busDepth]

/-- C3, as stated, fails: a transfer that times out with nothing delivered
gives the caller the same result and the same hardware state as a successful
transfer (for the reads, a successful read of the value 0). -/
theorem timeout_result_equals_success :
    write_reg env0 ⟨.RDY_TIMEOUT, []⟩ m0 0x4B 1 hw0 = write_reg env0 ⟨.RDY_OK, []⟩ m0 0x4B 1 hw0 ∧
    read_byte env0 ⟨.RDY_TIMEOUT, []⟩ m0 0x4D hw0 = read_byte env0 ⟨.RDY_OK, [0]⟩ m0 0x4D hw0 ∧
    read_word env0 ⟨.RDY_TIMEOUT, []⟩ m0 0x4D hw0 =
      read_word env0 ⟨.RDY_OK, [0, 0]⟩ m0 0x4D hw0 := by
  decide

/-- C3, amended: the status of the transfer does not reach the caller. For any
status (timeout included) and any delivered bytes, each of write_reg, read_byte
and read_word returns after exactly acquire, one timed transfer, release, so
with the bus released; write_reg returns nothing, read_byte returns the first
byte of its receive buffer (the delivered byte, or the initial 0), read_word
the big-endian join of the two bytes of its receive buffer (delivered bytes,
the initial 0 for each missing one). Hence the result after a timeout equals
the result of a successful transfer delivering the same bytes, and after a
timeout with nothing delivered the reads return 0. -/
theorem transfer_status_not_reported (env : Extern) (st : msg_t) (rx : List Nat)
    (m : GMouse) (reg val : Nat) (hw : Hw) (d : Nat) :
    write_reg env ⟨st, rx⟩ m reg val hw = write_reg env ⟨.RDY_OK, rx⟩ m reg val hw ∧
    read_byte env ⟨st, rx⟩ m reg hw = read_byte env ⟨.RDY_OK, rx⟩ m reg hw ∧
    read_word env ⟨st, rx⟩ m reg hw = read_word env ⟨.RDY_OK, rx⟩ m reg hw ∧
    (read_byte env ⟨.RDY_TIMEOUT, []⟩ m reg hw).1 = 0 ∧
    (read_word env ⟨.RDY_TIMEOUT, []⟩ m reg hw).1 = 0 ∧
    write_reg env ⟨st, rx⟩ m reg val hw = ((), { trace := hw.trace ++
      [.i2cAcquireBus .I2CD3,
       .i2cMasterTransmitTimeout .I2CD3 env.STMPE811_ADDR [reg % 256, val % 256] 2 0
         (env.MS2ST STMPE811_TIMEOUT),
       .i2cReleaseBus .I2CD3] }) ∧
    read_byte env ⟨st, rx⟩ m reg hw = (rx.getD 0 0 % 256, { trace := hw.trace ++
      [.i2cAcquireBus .I2CD3,
       .i2cMasterTransmitTimeout .I2CD3 env.STMPE811_ADDR [reg % 256] 1 1
         (env.MS2ST STMPE811_TIMEOUT),
       .i2cReleaseBus .I2CD3] }) ∧
    read_word env ⟨st, rx⟩ m reg hw =
      (256 * (rx.getD 0 0 % 256) + rx.getD 1 0 % 256, { trace := hw.trace ++
      [.i2cAcquireBus .I2CD3,
       .i2cMasterTransmitTimeout .I2CD3 env.STMPE811_ADDR [reg % 256] 1 2
         (env.MS2ST STMPE811_TIMEOUT),
       .i2cReleaseBus .I2CD3] }) ∧
    busDepth d (issued hw (write_reg env ⟨.RDY_TIMEOUT, rx⟩ m reg val hw).2) = some d ∧
    busDepth d (issued hw (read_byte env ⟨.RDY_TIMEOUT, rx⟩ m reg hw).2) = some d ∧
    busDepth d (issued hw (read_word env ⟨.RDY_TIMEOUT, rx⟩ m reg hw).2) = some d := by
  have hbyte : (receive [0] 1 rx).getD 0 0 = rx.getD 0 0 % 256 := by
    cases rx with
    | nil => simp [receive]
    | cons b0 rest => simp [receive]
  have hword : (((receive [0, 0] 2 rx).getD 0 0 % 65536) <<< 8 |||
      (receive [0, 0] 2 rx).getD 1 0) % 65536 = 256 * (rx.getD 0 0 % 256) + rx.getD 1 0 % 256 := by
    match rx with
    | [] => simp [receive]
    | [b0] =>
      have e := word_of_bytes (b0 % 256) 0 (Nat.mod_lt _ (by omega)) (by omega)
      simpa [receive] using e
    | b0 :: b1 :: rest =>
      have e := word_of_bytes (b0 % 256) (b1 % 256) (Nat.mod_lt _ (by omega))
        (Nat.mod_lt _ (by omega))
      simpa [receive] using e
  refine ⟨?_, ?_, ?_, ?_, ?_, ?_, ?_, ?_, ?_, ?_, ?_⟩
  · simp [write_reg, i2cMasterTransmitTimeout]
  · simp [read_byte, i2cMasterTransmitTimeout]
  · simp [read_word, i2cMasterTransmitTimeout]
  · simp [read_byte, i2cMasterTransmitTimeout, receive]
  · simp [read_word, i2cMasterTransmitTimeout, receive]
  · simp [write_reg, i2cAcquireBus, i2cReleaseBus, i2cMasterTransmitTimeout]
  · simp only [read_byte, i2cAcquireBus, i2cReleaseBus, i2cMasterTransmitTimeout, hbyte,
      List.append_assoc, List.singleton_append, List.cons_append, List.nil_append]
  · simp only [read_word, i2cAcquireBus, i2cReleaseBus, i2cMasterTransmitTimeout, hword,
      List.append_assoc, List.singleton_append, List.cons_append, List.nil_append]
  · simp [write_reg, i2cAcquireBus, i2cReleaseBus, i2cMasterTransmitTimeout, issued, busDepth]
  · simp [read_byte, i2cAcquireBus, i2cReleaseBus, i2cMasterTransmitTimeout, issued, busDepth]
  · simp [read_word, i2cAcquireBus, i2cReleaseBus, i2cMasterTransmitTimeout, issued, busDepth]

/-- C10: read_word joins the two received bytes big-endian: with bytes b0 then
b1 delivered the result is 256*b0 + b1, a 16-bit value whose high byte is b0
and low byte is b1, and different byte pairs give different results; with
nothing delivered the result is 0. read_byte returns the received byte, or 0
with nothing delivered. -/
theorem read_word_big_endian (env : Extern) (st : msg_t) (m : GMouse) (reg : Nat) (hw : Hw)
    (b0 b1 c0 c1 : Nat) (hb0 : b0 < 256) (hb1 : b1 < 256) (hc0 : c0 < 256) (hc1 : c1 < 256) :
    (read_word env ⟨st, [b0, b1]⟩ m reg hw).1 = 256 * b0 + b1 ∧
    (read_word env ⟨st, [b0, b1]⟩ m reg hw).1 < 65536 ∧
    (read_word env ⟨st, [b0, b1]⟩ m reg hw).1 >>> 8 = b0 ∧
    (read_word env ⟨st, [b0, b1]⟩ m reg hw).1 &&& 0xFF = b1 ∧
    ((read_word env ⟨st, [b0, b1]⟩ m reg hw).1 = (read_word env ⟨st, [c0, c1]⟩ m reg hw).1 →
      b0 = c0 ∧ b1 = c1) ∧
    (read_word env ⟨st, []⟩ m reg hw).1 = 0 ∧
    (read_byte env ⟨st, [b0]⟩ m reg hw).1 = b0 ∧
    (read_byte env ⟨st, []⟩ m reg hw).1 = 0 := by
  have hw_b : (read_word env ⟨st, [b0, b1]⟩ m reg hw).1 = 256 * b0 + b1 := by
    simp only [read_word, i2cMasterTransmitTimeout, receive, List.take, List.map, List.length,
      List.drop, List.append_nil, List.cons_append, List.nil_append, List.getD_cons_zero,
      List.getD_cons_succ, Nat.mod_eq_of_lt hb0, Nat.mod_eq_of_lt hb1]
    exact word_of_bytes b0 b1 hb0 hb1
  have hw_c : (read_word env ⟨st, [c0, c1]⟩ m reg hw).1 = 256 * c0 + c1 := by
    simp only [read_word, i2cMasterTransmitTimeout, receive, List.take, List.map, List.length,
      List.drop, List.append_nil, List.cons_append, List.nil_append, List.getD_cons_zero,
      List.getD_cons_succ, Nat.mod_eq_of_lt hc0, Nat.mod_eq_of_lt hc1]
    exact word_of_bytes c0 c1 hc0 hc1
  have hand : (256 * b0 + b1) &&& 0xFF = b1 := by
    have e : (0xFF : Nat) = 2 ^ 8 - 1 := by norm_num
    rw [e, Nat.and_pow_two_sub_one_eq_mod]
    omega
  refine ⟨hw_b, ?_, ?_, ?_, ?_, ?_, ?_, ?_⟩
  · rw [hw_b]; omega
  · rw [hw_b, Nat.shiftRight_eq_div_pow]; omega
  · rw [hw_b]; exact hand
  · rw [hw_b, hw_c]; omega
  · simp [read_word, i2cMasterTransmitTimeout, receive]
  · simp [read_byte, i2cMasterTransmitTimeout, receive, Nat.mod_eq_of_lt hb0]
  · simp [read_byte, i2cMasterTransmitTimeout, receive]

theorem read_word_big_endian_witness :
    (0x12 : Nat) < 256 ∧ (0x34 : Nat) < 256 ∧ (0x34 : Nat) < 256 ∧ (0x12 : Nat) < 256 ∧
    ((read_word env0 ⟨.RDY_OK, [0x12, 0x34]⟩ m0 0x4D hw0).1 = 256 * 0x12 + 0x34 ∧
     (read_word env0 ⟨.RDY_OK, [0x12, 0x34]⟩ m0 0x4D hw0).1 < 65536 ∧
     (read_word env0 ⟨.RDY_OK, [0x12, 0x34]⟩ m0 0x4D hw0).1 >>> 8 = 0x12 ∧
     (read_word env0 ⟨.RDY_OK, [0x12, 0x34]⟩ m0 0x4D hw0).1 &&& 0xFF = 0x34 ∧
     ((read_word env0 ⟨.RDY_OK, [0x12, 0x34]⟩ m0 0x4D hw0).1 =
        (read_word env0 ⟨.RDY_OK, [0x34, 0x12]⟩ m0 0x4D hw0).1 →
       0x12 = 0x34 ∧ 0x34 = 0x12) ∧
     (read_word env0 ⟨.RDY_OK, []⟩ m0 0x4D hw0).1 = 0 ∧
     (read_byte env0 ⟨.RDY_OK, [0x12]⟩ m0 0x4D hw0).1 = 0x12 ∧
     (read_byte env0 ⟨.RDY_OK, []⟩ m0 0x4D hw0).1 = 0) :=
  ⟨by decide, by decide, by decide, by decide,
    read_word_big_endian env0 .RDY_OK m0 0x4D hw0 0x12 0x34 0x34 0x12
      (by decide) (by decide) (by decide) (by decide)⟩

/-! ## Bus discipline over call sequences -/

/-- C5: for every finite sequence of adapter calls (aquire_bus, release_bus,
write_reg, read_byte, read_word, any arguments, any transfer outcomes) in which
every release_bus follows a matching aquire_bus, the number of outstanding I2C
bus acquisitions is at most one after every initial part of the operations
issued, every I2C release finds exactly one outstanding acquisition, and none
is outstanding at the end. (aquire_bus and release_bus issue no bus operation,
so the proof makes no use of the matching condition.) -/
theorem bus_acquisition_never_nested (env : Extern) (m : GMouse) (calls : List Call) (hw : Hw)
    (_h : bracketed 0 calls = true) :
    (∀ p q : List HalOp, issued hw (runCalls env m calls hw) = p ++ q →
      ∃ d, busDepth 0 p = some d ∧ d ≤ 1) ∧
    (∀ (p : List HalOp) (drv : I2CDriver) (q : List HalOp),
      issued hw (runCalls env m calls hw) = p ++ HalOp.i2cReleaseBus drv :: q →
      busDepth 0 p = some 1) ∧
    busDepth 0 (issued hw (runCalls env m calls hw)) = some 0 := by
  have e : issued hw (runCalls env m calls hw) = callsOps env calls :=
    issued_of_trace hw _ _ (runCalls_trace env m calls hw)
  have t : Transactions (callsOps env calls) := transactions_callsOps env calls
  rw [e]
  exact ⟨transactions_depth_le_one t, transactions_release_matched t,
    transactions_all_released t⟩

theorem bus_acquisition_never_nested_witness :
    bracketed 0 [.aquire_bus, .write_reg 0x4B 1 ⟨.RDY_OK, []⟩,
        .read_word 0x4D ⟨.RDY_TIMEOUT, []⟩, .release_bus, .read_byte 0x40 ⟨.RDY_OK, [7]⟩] = true ∧
    ((∀ p q : List HalOp,
        issued hw0 (runCalls env0 m0 [.aquire_bus, .write_reg 0x4B 1 ⟨.RDY_OK, []⟩,
          .read_word 0x4D ⟨.RDY_TIMEOUT, []⟩, .release_bus, .read_byte 0x40 ⟨.RDY_OK, [7]⟩] hw0)
          = p ++ q →
        ∃ d, busDepth 0 p = some d ∧ d ≤ 1) ∧
     (∀ (p : List HalOp) (drv : I2CDriver) (q : List HalOp),
        issued hw0 (runCalls env0 m0 [.aquire_bus, .write_reg 0x4B 1 ⟨.RDY_OK, []⟩,
          .read_word 0x4D ⟨.RDY_TIMEOUT, []⟩, .release_bus, .read_byte 0x40 ⟨.RDY_OK, [7]⟩] hw0)
          = p ++ HalOp.i2cReleaseBus drv :: q →
        busDepth 0 p = some 1) ∧
     busDepth 0 (issued hw0 (runCalls env0 m0 [.aquire_bus, .write_reg 0x4B 1 ⟨.RDY_OK, []⟩,
          .read_word 0x4D ⟨.RDY_TIMEOUT, []⟩, .release_bus, .read_byte 0x40 ⟨.RDY_OK, [7]⟩] hw0))
        = some 0) :=
  ⟨by decide, bus_acquisition_never_nested env0 m0 _ hw0 (by decide)⟩

/-- C8, as stated, fails: the sample sequence aquire_bus, write_reg, read_word,
release_bus does not issue exactly one I2C acquire and one I2C release; it
issues two of each, and after the first three operations no acquisition is
outstanding. -/
theorem sample_not_single_acquisition :
    ¬ ((issued hw0 (runCalls env0 m0
          (sampleCalls 0x4B 1 0x4D ⟨.RDY_OK, []⟩ ⟨.RDY_OK, [0x12, 0x34]⟩) hw0)).countP isAcquire = 1 ∧
       (issued hw0 (runCalls env0 m0
          (sampleCalls 0x4B 1 0x4D ⟨.RDY_OK, []⟩ ⟨.RDY_OK, [0x12, 0x34]⟩) hw0)).countP isRelease = 1) ∧
    busDepth 0 ((issued hw0 (runCalls env0 m0
          (sampleCalls 0x4B 1 0x4D ⟨.RDY_OK, []⟩ ⟨.RDY_OK, [0x12, 0x34]⟩) hw0)).take 3) = some 0 := by
  decide

/-- C8, amended: the sample sequence aquire_bus, write_reg, read_word,
release_bus issues exactly six bus operations, for every choice of registers,
value and transfer outcomes: acquire, transfer, release for the write, then
acquire, transfer, release for the read. Each transfer has its own acquisition
(two acquires, two releases) and the bus is released between the transfers. -/
theorem sample_two_acquisitions (env : Extern) (m : GMouse) (selectReg v reg : Nat)
    (x1 x2 : Transfer) (hw : Hw) :
    issued hw (runCalls env m (sampleCalls selectReg v reg x1 x2) hw) =
      [.i2cAcquireBus .I2CD3,
       .i2cMasterTransmitTimeout .I2CD3 env.STMPE811_ADDR [selectReg % 256, v % 256] 2 0
         (env.MS2ST STMPE811_TIMEOUT),
       .i2cReleaseBus .I2CD3,
       .i2cAcquireBus .I2CD3,
       .i2cMasterTransmitTimeout .I2CD3 env.STMPE811_ADDR [reg % 256] 1 2
         (env.MS2ST STMPE811_TIMEOUT),
       .i2cReleaseBus .I2CD3] ∧
    (issued hw (runCalls env m (sampleCalls selectReg v reg x1 x2) hw)).countP isAcquire = 2 ∧
    (issued hw (runCalls env m (sampleCalls selectReg v reg x1 x2) hw)).countP isRelease = 2 ∧
    busDepth 0 ((issued hw (runCalls env m (sampleCalls selectReg v reg x1 x2) hw)).take 3)
      = some 0 := by
  have e : issued hw (runCalls env m (sampleCalls selectReg v reg x1 x2) hw) =
      callsOps env (sampleCalls selectReg v reg x1 x2) :=
    issued_of_trace hw _ _ (runCalls_trace env m _ hw)
  rw [e]
  simp [sampleCalls, callsOps, callOps, isAcquire, isRelease, busDepth, List.countP_cons]

end STMPE811Board
